import Mathlib

/-!
# Verification of the `mesh_rectangle` grid construction and interpolation engine

A shallow embedding, over exact rationals, of the grid/interpolation core of the
`mesh_rectangle` repository (`MeshRectangle.py` and
`MeshStructured/MeshStructured.py`), together with theorems settling the frozen
claims about it.

Modelling conventions:
* Python / numpy floating-point numbers are idealised as `ℚ` (exact arithmetic);
  `None` becomes `Option.none`; a raised exception becomes `Option.none` at the
  call's result type.
* numpy's `NaN` fill value ("no data") for a grid cell is `Option.none` at the
  cell type, so a depth field is a `List (List (Option ℚ))`.
* The scipy Delaunay triangulation of the sample cloud is passed in explicitly
  as a list of triangles (`Tri`), each carrying its three vertices and their
  sample values; `scipy.interpolate.griddata(method='linear')` and the
  `qhull.Delaunay`-based weight computation in `set_var` are modelled over that
  list following their documented semantics (barycentric interpolation on the
  containing simplex, `find_simplex = -1` outside the convex hull).
* The non-seeded `np.random.choice` draw in `exec` is modelled by quantifying
  over the drawn index list (`validDraw`).
-/

namespace MeshVerif

/-! ## Python rounding

`round()` in Python 3 rounds half to even (banker's rounding). -/

/-- Python 3's built-in `round` on an exact rational: nearest integer, ties to
the even neighbour. -/
def pyRound (q : ℚ) : ℤ :=
  let f : ℤ := ⌊q⌋
  let r : ℚ := q - f
  if r < 1/2 then f
  else if 1/2 < r then f + 1
  else if f % 2 = 0 then f else f + 1

/-! ## GridSpec and the corner-point constructor

`MeshRectangle.__init__` (src/MeshRectangle.py lines 33-46) and the corner
branch of `MeshStructured.load` (src/MeshStructured/MeshStructured.py lines
71-93) compute the same six quantities. -/

/-- The persistent description of a rectangular grid: origin (minimum corner),
spacing and node counts.  Mirrors the fields `xmin, ymin, dx, dy, nx, ny` that
both classes store. -/
structure GridSpec where
  xmin : ℚ
  ymin : ℚ
  dx : ℚ
  dy : ℚ
  nx : ℤ
  ny : ℤ
deriving DecidableEq

/-- Corner branch of `MeshStructured.load` (and the body of
`MeshRectangle.__init__` when no config file is given):

    self.xmin = min(x1, x2); self.ymin = min(y1, y2)
    xmax = max(x1, x2); ymax = max(y1, y2)
    width = xmax - self.xmin; heigth = ymax - self.ymin
    self.nx = round(width / self.dx); self.ny = round(heigth / self.dy)

There is no validation of the domain or the spacings; the only failure mode is
the `ZeroDivisionError` raised by `width / self.dx` when a spacing is zero,
modelled by `none`. -/
def load (x1 x2 y1 y2 dx dy : ℚ) : Option GridSpec :=
  if dx = 0 ∨ dy = 0 then none
  else
    let xmin := min x1 x2
    let ymin := min y1 y2
    let xmax := max x1 x2
    let ymax := max y1 y2
    let width := xmax - xmin
    let heigth := ymax - ymin
    some { xmin := xmin, ymin := ymin, dx := dx, dy := dy,
           nx := pyRound (width / dx), ny := pyRound (heigth / dy) }

/-! ## Node coordinates

`exec` builds the node grid with `np.arange`, `np.meshgrid` and `np.flipud`:

    x_ext = np.arange(self.xmin, xmax, self.dx)
    y_ext = np.arange(self.ymin, ymax, self.dy)
    self.x, self.y = np.meshgrid(x_ext, y_ext)
    self.y = np.flipud(self.y)

where `xmax = self.xmin + self.nx * self.dx` and likewise for `ymax`. -/

/-- `np.arange(start, stop, step)` idealised over `ℚ`: `⌈(stop - start)/step⌉`
evenly spaced values from `start` (numpy's documented length formula; negative
counts give the empty array). -/
def npArange (start stop step : ℚ) : List ℚ :=
  (List.range (⌈(stop - start) / step⌉).toNat).map (fun k : ℕ => start + (k : ℚ) * step)

/-- The ascending x-coordinates of the grid columns,
`np.arange(xmin, xmin + nx*dx, dx)`. -/
def execXs (g : GridSpec) : List ℚ :=
  npArange g.xmin (g.xmin + (g.nx : ℚ) * g.dx) g.dx

/-- The ascending y-coordinates of the grid rows,
`np.arange(ymin, ymin + ny*dy, dy)`. -/
def execYs (g : GridSpec) : List ℚ :=
  npArange g.ymin (g.ymin + (g.ny : ℚ) * g.dy) g.dy

/-- The y-coordinate of each node-grid row after `np.flipud`: row 0 carries the
last (largest) entry of the ascending `y_ext`. -/
def execRowYs (g : GridSpec) : List ℚ :=
  (execYs g).reverse

/-- Shape `(rows, cols)` of a depth field. -/
def fieldShape (z : List (List (Option ℚ))) : ℕ × ℕ :=
  (z.length, (z.headD []).length)

/-! ## Triangulation-based interpolation

A `Tri` is one simplex of the Delaunay triangulation of the bathymetry samples,
carrying its three vertices and their sample values.  The barycentric
coordinates below are the standard closed forms; `scipy` computes exactly these
through the triangulation's affine `transform` (`T⁻¹·(q - r)` and
`1 - Σ bary`). -/

/-- One triangle of the sample triangulation: vertex coordinates and the sample
values at those vertices. -/
structure Tri where
  p1 : ℚ × ℚ
  p2 : ℚ × ℚ
  p3 : ℚ × ℚ
  z1 : ℚ
  z2 : ℚ
  z3 : ℚ
deriving DecidableEq

/-- Twice the signed area of the triangle; zero iff the triangle is
degenerate. -/
def baryDen (T : Tri) : ℚ :=
  (T.p2.2 - T.p3.2) * (T.p1.1 - T.p3.1) + (T.p3.1 - T.p2.1) * (T.p1.2 - T.p3.2)

/-- First barycentric coordinate of `q` with respect to `T`. -/
def bary1 (T : Tri) (q : ℚ × ℚ) : ℚ :=
  ((T.p2.2 - T.p3.2) * (q.1 - T.p3.1) + (T.p3.1 - T.p2.1) * (q.2 - T.p3.2)) / baryDen T

/-- Second barycentric coordinate of `q` with respect to `T`. -/
def bary2 (T : Tri) (q : ℚ × ℚ) : ℚ :=
  ((T.p3.2 - T.p1.2) * (q.1 - T.p3.1) + (T.p1.1 - T.p3.1) * (q.2 - T.p3.2)) / baryDen T

/-- Third barycentric coordinate: `1 - bary1 - bary2` (as computed by
`set_var`'s `np.hstack((bary, 1 - bary.sum(...)))`). -/
def bary3 (T : Tri) (q : ℚ × ℚ) : ℚ :=
  1 - bary1 T q - bary2 T q

/-- Whether a non-degenerate triangle contains the query point (all barycentric
coordinates non-negative). -/
def triContains (T : Tri) (q : ℚ × ℚ) : Bool :=
  decide (baryDen T ≠ 0 ∧ 0 ≤ bary1 T q ∧ 0 ≤ bary2 T q ∧ 0 ≤ bary3 T q)

/-- `scipy.interpolate.griddata(..., method='linear')` at one query node:
locate the simplex containing the node and return the barycentric combination
of the vertex values, or the `NaN` fill value (`none`) when the node lies in no
simplex (outside the convex hull of the samples). -/
def griddataLinearAt (tris : List Tri) (q : ℚ × ℚ) : Option ℚ :=
  (tris.find? (fun T => triContains T q)).map
    (fun T => bary1 T q * T.z1 + bary2 T q * T.z2 + bary3 T q * T.z3)

/-- `Delaunay.find_simplex(q)`: the index of the simplex containing `q`, or
`-1` when `q` is outside the convex hull. -/
def findSimplex (tris : List Tri) (q : ℚ × ℚ) : ℤ :=
  match tris.findIdx? (fun T => triContains T q) with
  | some i => (i : ℤ)
  | none => -1

/-- `np.take(..., i, axis=0)` on the simplex list: negative indices count from
the end (numpy indexing), so `-1` wraps to the **last** simplex. -/
def npTakeTri (tris : List Tri) (i : ℤ) : Option Tri :=
  tris[(i % (tris.length : ℤ)).toNat]?

/-- The interpolation performed per node by `MeshStructured.set_var`
(src/MeshStructured/MeshStructured.py lines 293-310): `interp_weights` takes
`simplex = tri.find_simplex(uv)`, then `np.take(tri.simplices, simplex)` and
`np.take(tri.transform, simplex)` — with **no** handling of `simplex == -1` —
computes `bary = T⁻¹(q - r)` and the weights `(bary, 1 - bary.sum())`, and
`interpolate` returns `einsum('nj,nj->n', values[vertices], weights)`.  For a
query outside the hull the index `-1` silently wraps to the last simplex and
the (partially negative) weights produce a finite extrapolated value. -/
def setVarAt (tris : List Tri) (q : ℚ × ℚ) : Option ℚ :=
  (npTakeTri tris (findSimplex tris q)).map
    (fun T => bary1 T q * T.z1 + bary2 T q * T.z2 + bary3 T q * T.z3)

/-! ## Point-cloud reduction

`exec` reduces the bathymetry cloud with

    indices = np.random.choice(len(xb), int(len(xb) * factor_select), replace=False)
    xb_s = xb[indices]; yb_s = yb[indices]; zb_s = zb[indices]

`np.random.choice(n, k, replace=False)` draws `k` **distinct** indices from
`[0, n)`; the draw is modelled by quantifying over the index list. -/

/-- Fancy indexing `xs[idx]`. -/
def reduceIdx (xs : List ℚ) (idx : List ℕ) : List ℚ :=
  idx.map (fun i => xs.getD i 0)

/-- The possible outcomes of `np.random.choice(n, k, replace=False)`: `k`
distinct indices below `n`, in any order. -/
def validDraw (n k : ℕ) (idx : List ℕ) : Prop :=
  idx.length = k ∧ idx.Nodup ∧ ∀ i ∈ idx, i < n

/-- The point-cloud reduction step of `exec`: the same drawn index list applied
to the three coordinate arrays. -/
def reduce (xs ys zs : List ℚ) (idx : List ℕ) : List ℚ × List ℚ × List ℚ :=
  (reduceIdx xs idx, reduceIdx ys idx, reduceIdx zs idx)

/-! ## Contour masking (`np.where(mask, self.z, np.nan)`)

The membership bit itself comes from `matplotlib.path.Path.contains_points`,
compiled C++ outside this repository whose behaviour for points exactly on the
boundary is documented as undefined; the masking application is modelled here
with the mask bitmap as an input. -/

/-- Per-cell effect of `self.z = np.where(mask, self.z, np.nan)`. -/
def cellMask (m : Bool) (v : Option ℚ) : Option ℚ :=
  if m then v else none

/-- `np.where(mask, z, np.nan)` over the whole field. -/
def npWhere (mask : List (List Bool)) (z : List (List (Option ℚ))) :
    List (List (Option ℚ)) :=
  List.zipWith (List.zipWith cellMask) mask z

/-! ## The MeshStructured state machine

Only the attributes the claims touch are modelled.  `self.x` (and `y`, `z`) are
initialised to the empty list `[]`, not `None`, hence `Option` with `some []`
as the initial value. -/

/-- The mutable state of a `MeshStructured` instance. -/
structure MState where
  xmin : Option ℚ
  ymin : Option ℚ
  dx : Option ℚ
  dy : Option ℚ
  nx : Option ℤ
  ny : Option ℤ
  x : Option (List (List ℚ))
  y : Option (List (List ℚ))
  z : Option (List (List (Option ℚ)))
deriving DecidableEq

/-- State immediately after `MeshStructured.__init__`: grid parameters `None`,
coordinate and depth fields the empty list. -/
def initState : MState :=
  ⟨none, none, none, none, none, none, some [], some [], some []⟩

/-- The six grid parameters, when all are set. -/
def gridOf (s : MState) : Option GridSpec :=
  match s.xmin, s.ymin, s.dx, s.dy, s.nx, s.ny with
  | some a, some b, some c, some d, some e, some f => some ⟨a, b, c, d, e, f⟩
  | _, _, _, _, _, _ => none

/-- `MeshStructured.load` by corner points, as a state transition: stores the
six quantities computed by `load`; touches neither `x`, `y` nor `z`. -/
def loadCorners (s : MState) (x1 x2 y1 y2 dx dy : ℚ) : Option MState :=
  (load x1 x2 y1 y2 dx dy).map (fun g =>
    { s with xmin := some g.xmin, ymin := some g.ymin, dx := some g.dx,
             dy := some g.dy, nx := some g.nx, ny := some g.ny })

/-- Lookup of one key in a parsed configuration section.  The section is
modelled at the value level (`List (String × ℚ)`): Python's `repr`/`float` and
`str`/`int` round-trips on the written text are exact, so the stored text is
identified with the stored number. -/
def confLookup (rec : List (String × ℚ)) (k : String) : Option ℚ :=
  (rec.find? (fun kv => kv.1 == k)).map (fun kv => kv.2)

/-- `int(text)` on a stored value: succeeds only on integral values (Python's
`int('2.5')` raises `ValueError`). -/
def intOfQ (q : ℚ) : Option ℤ :=
  if q.den = 1 then some q.num else none

/-- One optional `int` field of `read_conf`: absent keeps the prior value, a
non-integral stored value raises. -/
def readIntField (cur : Option ℤ) (v : Option ℚ) : Option (Option ℤ) :=
  match v with
  | none => some cur
  | some q => (intOfQ q).map some

/-- `MeshStructured.read_conf` (metric key names), as a state transition.
Origin/spacing fields are read as floats and fall back to the prior value when
absent; `nx`/`ny` are read with `int()`; afterwards `self.lx = self.nx *
self.dx` (and `ly`) raises a `TypeError` — re-raised as `ValueError` — when any
factor is still `None`.  Failure is `none`. -/
def readConfStep (s : MState) (rec : List (String × ℚ)) : Option MState :=
  let xmin' := (confLookup rec "xmin").elim s.xmin some
  let ymin' := (confLookup rec "ymin").elim s.ymin some
  let dx' := (confLookup rec "dx").elim s.dx some
  let dy' := (confLookup rec "dy").elim s.dy some
  match readIntField s.nx (confLookup rec "nx"),
        readIntField s.ny (confLookup rec "ny") with
  | some nx', some ny' =>
    match nx', dx', ny', dy' with
    | some _, some _, some _, some _ =>
        some { s with xmin := xmin', ymin := ymin', dx := dx', dy := dy',
                      nx := nx', ny := ny' }
    | _, _, _, _ => none
  | _, _ => none

/-- `MeshStructured.exec` (called with `xc = yc = None` and `factor_select = 1`;
the full-retention draw permutes the samples, which leaves the triangulation,
and hence every interpolated value, unchanged): builds the node grid, updates
`xmin`/`ymin` to `np.nanmin` of the coordinate grids, and stores the
interpolated depth field.  Fails (`TypeError`) when the grid parameters are
still `None`, and (`ValueError` from `np.nanmin` of an empty array) when the
grid has no nodes. -/
def execStep (s : MState) (tris : List Tri) : Option MState :=
  (gridOf s).bind (fun g =>
    let xs := execXs g
    let ys := execRowYs g
    if xs = [] ∨ ys = [] then none
    else
      some { s with
        x := some (ys.map (fun _ => xs)),
        y := some (ys.map (fun yv => xs.map (fun _ => yv))),
        xmin := some (xs.foldl min (xs.headD 0)),
        ymin := some (ys.foldl min (ys.headD 0)),
        z := some (ys.map (fun yv => xs.map (fun xv => griddataLinearAt tris (xv, yv)))) })

/-- `MeshStructured.enabled`: `return self.x is not None`. -/
def enabled (s : MState) : Bool :=
  s.x.isSome

/-- `MeshStructured.set_var`: recomputes the (unflipped) node meshes with
`np.arange`/`np.meshgrid` from the stored grid parameters, triangulates the
supplied scatter (`qhull.Delaunay`, which raises on degenerate input — modelled
by the empty triangulation), and interpolates per node as in `setVarAt`.
It reads nothing but the six grid parameters: in particular it performs no
readiness or state check and never touches `self.z`. -/
def setVarStep (s : MState) (tris : List Tri) :
    Option (List (List ℚ) × List (List ℚ) × List (List ℚ)) :=
  (gridOf s).bind (fun g =>
    if tris = [] then none
    else
      let xs := execXs g
      let ys := execYs g
      some (ys.map (fun _ => xs),
            ys.map (fun yv => xs.map (fun _ => yv)),
            ys.map (fun yv => xs.map (fun xv => (setVarAt tris (xv, yv)).getD 0))))

/-- The states a `MeshStructured` instance can reach through the public
operations: construction, `load` (by corners or from a configuration section)
and `exec`. -/
inductive Reach : MState → Prop where
  | init : Reach initState
  | load_corners {s s' : MState} (x1 x2 y1 y2 dx dy : ℚ) :
      Reach s → loadCorners s x1 x2 y1 y2 dx dy = some s' → Reach s'
  | load_file {s s' : MState} (rec : List (String × ℚ)) :
      Reach s → readConfStep s rec = some s' → Reach s'
  | exec {s s' : MState} (tris : List Tri) :
      Reach s → execStep s tris = some s' → Reach s'

/-! ## Configuration persistence

`MeshRectangle.save_conf` (src/MeshRectangle.py lines 68-81) writes its section
through `str.format`; its header template is malformed.  The formatter below is
a faithful model of CPython's parser on the template shapes involved. -/

/-- Opening brace character (`0x7b`). -/
def braceL : Char := Char.ofNat 123

/-- Closing brace character (`0x7d`). -/
def braceR : Char := Char.ofNat 125

/-- One-argument `str.format` interpreter: a `braceL ... braceR` field
substitutes the (already converted) argument, doubled braces are escapes, and a
lone closing brace or an unterminated field raises `ValueError` (modelled by
`none`).  Each step consumes at least one character, so `length` fuel always
suffices. -/
def pyFormatCore (arg : String) : ℕ → List Char → Option String
  | _, [] => some ""
  | 0, _ :: _ => none
  | fuel + 1, c :: cs =>
    if c = braceL then
      match cs with
      | [] => none
      | c2 :: cs2 =>
        if c2 = braceL then (pyFormatCore arg fuel cs2).map (fun s => braceL.toString ++ s)
        else
          match (c2 :: cs2).dropWhile (fun d => !(d = braceR)) with
          | [] => none
          | _ :: rest => (pyFormatCore arg fuel rest).map (fun s => arg ++ s)
    else if c = braceR then
      match cs with
      | c2 :: cs2 =>
        if c2 = braceR then (pyFormatCore arg fuel cs2).map (fun s => braceR.toString ++ s)
        else none
      | [] => none
    else (pyFormatCore arg fuel cs).map (fun s => c.toString ++ s)

/-- `template.format(arg)` for a one-field template. -/
def pyFormat1 (tpl arg : String) : Option String :=
  pyFormatCore arg tpl.length tpl.toList

/-- Python `'\x7b:f\x7d'.format(v)` rendering: fixed-point with six decimals
(ties to even). -/
def fixed6 (q : ℚ) : String :=
  let n : ℤ := pyRound (q * 1000000)
  let sign := if n < 0 then "-" else ""
  let m : ℕ := n.natAbs
  let fps := toString (m % 1000000)
  sign ++ toString (m / 1000000) ++ "." ++
    String.mk (List.replicate (6 - fps.length) '0') ++ fps

/-- `MeshRectangle.save_conf`: the sequence of `f.write(template.format(...))`
calls, concatenated (the source emits no newlines).  The header template is
`'[\x7b:s\x7d\x7d]'`: after the replacement field `\x7b:s\x7d` a lone `\x7d`
remains, so CPython raises `ValueError` on the very first write. -/
def meshRectSaveConf (key : String) (g : GridSpec) : Option String := do
  let h ← pyFormat1 "[\x7b:s\x7d\x7d]" key
  let w1 ← pyFormat1 "xmin = \x7b:f\x7d" (fixed6 g.xmin)
  let w2 ← pyFormat1 "ymin = \x7b:f\x7d" (fixed6 g.ymin)
  let w3 ← pyFormat1 "dx = \x7b:f\x7d" (fixed6 g.dx)
  let w4 ← pyFormat1 "dy = \x7b:f\x7d" (fixed6 g.dy)
  let w5 ← pyFormat1 "nx = \x7b:f\x7d" (fixed6 (g.nx : ℚ))
  let w6 ← pyFormat1 "ny = \x7b:f\x7d" (fixed6 (g.ny : ℚ))
  pure (h ++ w1 ++ w2 ++ w3 ++ w4 ++ w5 ++ w6)

/-- `MeshStructured.save_conf` (metric key names), at the value level: the six
fields written, in source order, as one named section.  (This variant writes a
well-formed `[key]` header and one `key = value` line per field.) -/
def meshStructSaveConf (g : GridSpec) : List (String × ℚ) :=
  [("xmin", g.xmin), ("ymin", g.ymin), ("dx", g.dx), ("dy", g.dy),
   ("nx", (g.nx : ℚ)), ("ny", (g.ny : ℚ))]

/-! ## Concrete instances used in witnesses and counterexamples -/

/-- A concrete non-degenerate sample triangle: vertices `(0,0), (4,0), (0,4)`
with depth values `1, 2, 3`.  The Delaunay triangulation of these three points
is this single simplex. -/
def sampleTri : Tri := ⟨(0, 0), (4, 0), (0, 4), 1, 2, 3⟩

/-- The coordinates of the three samples of `sampleTri`, as a set. -/
def samplePts : Set (ℚ × ℚ) := {(0, 0), (4, 0), (0, 4)}

/-- A configured engine state with grid origin `(0,0)`, spacing `(5,5)` and
node counts `(2,2)` — the grid of the end-to-end scenario. -/
def s7 : MState :=
  ⟨some 0, some 0, some 5, some 5, some 2, some 2, some [], some [], some []⟩

/-! ## Theorems -/

/-- C1: for every pair of corner points and strictly positive spacings, building
the grid from corners yields `nx = round(|x2 - x1| / dx)`,
`ny = round(|y2 - y1| / dy)`, `xmin = min(x1, x2)` and `ymin = min(y1, y2)`. -/
theorem load_corner_counts (x1 x2 y1 y2 dx dy : ℚ) (hdx : 0 < dx) (hdy : 0 < dy) :
    load x1 x2 y1 y2 dx dy =
      some { xmin := min x1 x2, ymin := min y1 y2, dx := dx, dy := dy,
             nx := pyRound (|x2 - x1| / dx), ny := pyRound (|y2 - y1| / dy) } := by
  have hx : max x1 x2 - min x1 x2 = |x2 - x1| := by
    rw [max_sub_min_eq_abs, abs_sub_comm]
  have hy : max y1 y2 - min y1 y2 = |y2 - y1| := by
    rw [max_sub_min_eq_abs, abs_sub_comm]
  rw [load, if_neg (by push_neg; exact ⟨ne_of_gt hdx, ne_of_gt hdy⟩)]
  show some (GridSpec.mk (min x1 x2) (min y1 y2) dx dy
        (pyRound ((max x1 x2 - min x1 x2) / dx))
        (pyRound ((max y1 y2 - min y1 y2) / dy))) =
      some { xmin := min x1 x2, ymin := min y1 y2, dx := dx, dy := dy,
             nx := pyRound (|x2 - x1| / dx), ny := pyRound (|y2 - y1| / dy) }
  rw [hx, hy]

/-- C1 witness: concrete corners `(0, 250) × (0, 100)` with spacing `100`. -/
theorem load_corner_counts_witness :
    load 0 250 0 100 100 100 =
      some { xmin := min 0 250, ymin := min 0 100, dx := 100, dy := 100,
             nx := pyRound (|(250:ℚ) - 0| / 100), ny := pyRound (|(100:ℚ) - 0| / 100) } :=
  load_corner_counts 0 250 0 100 100 100 (by norm_num) (by norm_num)

/-- C8 counterexample: a call with a non-positive extent (`x1 = x2`, so
`|x2 - x1| = 0`) and positive spacings does not fail at all: it silently
produces a grid spec with `nx = 0`, contradicting the claimed
`InvalidDomainError`. -/
theorem load_degenerate_extent_succeeds :
    load 0 0 0 100 100 100 =
      some { xmin := 0, ymin := 0, dx := 100, dy := 100, nx := 0, ny := 1 } ∧
    load 0 0 0 100 100 100 ≠ none := by
  have h : load 0 0 0 100 100 100 =
      some { xmin := 0, ymin := 0, dx := 100, dy := 100, nx := 0, ny := 1 } := by
    rw [load, if_neg (by norm_num)]
    norm_num [pyRound]
  exact ⟨h, by rw [h]; exact Option.some_ne_none _⟩

/-- C8 (amended): the corner-point construction performs no domain validation.
It fails if and only if a spacing is exactly zero (the `ZeroDivisionError` from
`width / dx`); non-positive extents and negative spacings are accepted
silently. -/
theorem load_fails_iff_zero_spacing (x1 x2 y1 y2 dx dy : ℚ) :
    load x1 x2 y1 y2 dx dy = none ↔ dx = 0 ∨ dy = 0 := by
  rw [load]
  split
  · simp_all
  · simp_all

/-- Unpacking of a successful containment test. -/
theorem triContains_spec {T : Tri} {q : ℚ × ℚ} (h : triContains T q = true) :
    baryDen T ≠ 0 ∧ 0 ≤ bary1 T q ∧ 0 ≤ bary2 T q ∧ 0 ≤ bary3 T q := by
  simpa [triContains] using h

/-- The three barycentric coordinates sum to one. -/
theorem bary_sum (T : Tri) (q : ℚ × ℚ) :
    bary1 T q + bary2 T q + bary3 T q = 1 := by
  rw [bary3]; ring

/-- First component of the barycentric reconstruction identity. -/
theorem bary_combo_fst {T : Tri} {q : ℚ × ℚ} (hden : baryDen T ≠ 0) :
    bary1 T q * T.p1.1 + bary2 T q * T.p2.1 + bary3 T q * T.p3.1 = q.1 := by
  rw [bary3, bary1, bary2]
  rw [baryDen] at hden ⊢
  field_simp
  ring

/-- Second component of the barycentric reconstruction identity. -/
theorem bary_combo_snd {T : Tri} {q : ℚ × ℚ} (hden : baryDen T ≠ 0) :
    bary1 T q * T.p1.2 + bary2 T q * T.p2.2 + bary3 T q * T.p3.2 = q.2 := by
  rw [bary3, bary1, bary2]
  rw [baryDen] at hden ⊢
  field_simp
  ring

/-- A point with non-degenerate barycentric coordinates is the corresponding
affine combination of the triangle's vertices. -/
theorem bary_combo {T : Tri} {q : ℚ × ℚ} (hden : baryDen T ≠ 0) :
    bary1 T q • T.p1 + bary2 T q • T.p2 + bary3 T q • T.p3 = q := by
  apply Prod.ext
  · simpa [Prod.fst_add, Prod.smul_fst, smul_eq_mul] using bary_combo_fst (q := q) hden
  · simpa [Prod.snd_add, Prod.smul_snd, smul_eq_mul] using bary_combo_snd (q := q) hden

/-- C2 (amended, `griddata` part): when every triangulation vertex is a sample
point, the linear `griddata` interpolation assigns the `NaN` fill value
(`none`) to every query node outside the convex hull of the samples. -/
theorem griddata_none_outside_hull (tris : List Tri) (S : Set (ℚ × ℚ)) (q : ℚ × ℚ)
    (hverts : ∀ T ∈ tris, T.p1 ∈ S ∧ T.p2 ∈ S ∧ T.p3 ∈ S)
    (hq : q ∉ convexHull ℚ S) :
    griddataLinearAt tris q = none := by
  rw [griddataLinearAt]
  cases hfind : tris.find? (fun T => triContains T q) with
  | none => rfl
  | some T =>
    exfalso
    apply hq
    have hTmem : T ∈ tris := List.mem_of_find?_eq_some hfind
    have hcont : triContains T q = true := by
      simpa using List.find?_some hfind
    obtain ⟨hden, h1, h2, h3⟩ := triContains_spec hcont
    have hmem := (convex_convexHull ℚ S).sum_mem
      (t := (Finset.univ : Finset (Fin 3)))
      (w := ![bary1 T q, bary2 T q, bary3 T q])
      (z := ![T.p1, T.p2, T.p3])
      (fun i _ => by fin_cases i <;> simpa)
      (by rw [Fin.sum_univ_three]; simpa using bary_sum T q)
      (fun i _ => by
        fin_cases i
        · exact subset_convexHull ℚ S (hverts T hTmem).1
        · exact subset_convexHull ℚ S (hverts T hTmem).2.1
        · exact subset_convexHull ℚ S (hverts T hTmem).2.2)
    rw [Fin.sum_univ_three] at hmem
    simp only [Matrix.cons_val_zero, Matrix.cons_val_one, Matrix.head_cons,
      Matrix.cons_val_two, Matrix.tail_cons] at hmem
    rwa [bary_combo hden] at hmem

/-- Half-planes bounded on the first coordinate are convex. -/
theorem convex_fst_le (r : ℚ) : Convex ℚ {p : ℚ × ℚ | p.1 ≤ r} := by
  intro p hp p' hp' a b ha hb hab
  simp only [Set.mem_setOf_eq] at hp hp' ⊢
  have hfst : (a • p + b • p').1 = a * p.1 + b * p'.1 := by
    simp [Prod.fst_add, Prod.smul_fst, smul_eq_mul]
  rw [hfst]
  calc a * p.1 + b * p'.1 ≤ a * r + b * r :=
        add_le_add (mul_le_mul_of_nonneg_left hp ha) (mul_le_mul_of_nonneg_left hp' hb)
    _ = r := by rw [← add_mul, hab, one_mul]

/-- A point strictly to the right of a vertical line bounding the sample set is
outside the convex hull. -/
theorem not_mem_hull_fst_gt {S : Set (ℚ × ℚ)} {r : ℚ} (hS : ∀ p ∈ S, p.1 ≤ r)
    {q : ℚ × ℚ} (hq : r < q.1) : q ∉ convexHull ℚ S := by
  intro hmem
  have hsub : convexHull ℚ S ⊆ {p : ℚ × ℚ | p.1 ≤ r} :=
    convexHull_min (fun p hp => hS p hp) (convex_fst_le r)
  exact absurd (hsub hmem) (not_le.mpr hq)

/-- The concrete sample cloud lies in the half-plane `x ≤ 4`. -/
theorem samplePts_fst_le : ∀ p ∈ samplePts, p.1 ≤ 4 := by
  intro p hp
  rcases hp with h | h | h
  · simp [h]
  · simp [h]
  · rw [Set.mem_singleton_iff] at h
    simp [h]

/-- C2 witness: for the concrete three-point cloud, the node `(5,5)` lies
outside the convex hull and `griddata` assigns it no data. -/
theorem griddata_none_outside_hull_witness :
    griddataLinearAt [sampleTri] (5, 5) = none :=
  griddata_none_outside_hull [sampleTri] samplePts (5, 5)
    (by
      intro T hT
      rw [List.mem_singleton] at hT
      subst hT
      refine ⟨?_, ?_, ?_⟩ <;> simp [sampleTri, samplePts])
    (not_mem_hull_fst_gt samplePts_fst_le (by norm_num))

/-- C2 counterexample: the node `(6,6)` lies outside the convex hull of the
samples, yet the secondary-variable interpolation of `set_var` produces the
finite extrapolated value `11/2` for it (the `find_simplex = -1` sentinel wraps
to the last simplex through `np.take`), not the "no data" sentinel. -/
theorem set_var_extrapolates_outside_hull :
    ((6:ℚ), (6:ℚ)) ∉ convexHull ℚ samplePts ∧
    setVarAt [sampleTri] (6, 6) = some (11/2) := by
  constructor
  · exact not_mem_hull_fst_gt samplePts_fst_le (by norm_num)
  · have hb1 : bary1 sampleTri (6, 6) = -2 := by
      norm_num [bary1, baryDen, sampleTri]
    have hb2 : bary2 sampleTri (6, 6) = 3/2 := by
      norm_num [bary2, baryDen, sampleTri]
    have hb3 : bary3 sampleTri (6, 6) = 3/2 := by
      rw [bary3, hb1, hb2]; norm_num
    have hcont : triContains sampleTri (6, 6) = false := by
      simp only [triContains, decide_eq_false_iff_not]
      rintro ⟨-, h, -⟩
      rw [hb1] at h
      norm_num at h
    have hfs : findSimplex [sampleTri] (6, 6) = -1 := by
      rw [findSimplex]
      simp [List.findIdx?_cons, hcont, List.findIdx?_nil]
    have htake : npTakeTri [sampleTri] (-1) = some sampleTri := rfl
    rw [setVarAt, hfs, htake, Option.map_some']
    rw [hb1, hb2, hb3]
    show some ((-2) * sampleTri.z1 + 3/2 * sampleTri.z2 + 3/2 * sampleTri.z3) = _
    norm_num [sampleTri]

/-- Indexing a list by `0, ..., length - 1` reproduces the list. -/
theorem getD_range_map (xs : List ℚ) :
    (List.range xs.length).map (fun i => xs.getD i 0) = xs := by
  induction xs with
  | nil => rfl
  | cons a t ih =>
    rw [List.length_cons, List.range_succ_eq_map, List.map_cons, List.map_map]
    have hcomp : ((fun i => (a :: t).getD i 0) ∘ Nat.succ) = fun i => t.getD i 0 := by
      funext i
      simp [List.getD_cons_succ]
    rw [hcomp, ih]
    simp

/-- A full-size replace-free draw is a permutation of `0, ..., n-1`. -/
theorem perm_range_of_validDraw {n : ℕ} {idx : List ℕ} (h : validDraw n n idx) :
    idx.Perm (List.range n) := by
  obtain ⟨hlen, hnd, hbound⟩ := h
  have hsub : idx ⊆ List.range n := fun i hi => List.mem_range.mpr (hbound i hi)
  exact (List.subperm_of_subset hnd hsub).perm_of_length_le
    (by rw [hlen, List.length_range])

/-- Fancy indexing by a full-size replace-free draw permutes the array. -/
theorem reduceIdx_perm (xs : List ℚ) (idx : List ℕ)
    (h : validDraw xs.length xs.length idx) :
    (reduceIdx xs idx).Perm xs := by
  have hperm := (perm_range_of_validDraw h).map (fun i => xs.getD i 0)
  rw [getD_range_map] at hperm
  exact hperm

/-- C5 counterexample: at `retention_fraction = 1` the draw `[1, 0]` is a valid
outcome of `np.random.choice(2, 2, replace=False)`, and on it the reduction
returns the input reversed, not unchanged. -/
theorem reduce_full_retention_not_id :
    validDraw 2 2 [1, 0] ∧
    reduce [1, 2] [3, 4] [5, 6] [1, 0] ≠ ([1, 2], [3, 4], [5, 6]) := by
  refine ⟨⟨rfl, by decide, by decide⟩, ?_⟩
  intro hcontra
  have heval : reduce [1, 2] [3, 4] [5, 6] [1, 0] = ([2, 1], [4, 3], [6, 5]) := by
    simp [reduce, reduceIdx]
  rw [heval] at hcontra
  simp only [Prod.mk.injEq, List.cons.injEq] at hcontra
  norm_num at hcontra

/-- C5 (amended): with `retention_fraction = 1` the reduction applies one
full-size replace-free index draw to the three coordinate arrays, so each
output is a permutation (multiset-equal reordering) of the corresponding
input — the same permutation for `x`, `y` and `z` — but not, in general, the
input in its original order. -/
theorem reduce_full_retention_perm (xs ys zs : List ℚ) (idx : List ℕ)
    (h : validDraw xs.length xs.length idx)
    (hy : ys.length = xs.length) (hz : zs.length = xs.length) :
    (reduce xs ys zs idx).1.Perm xs ∧ (reduce xs ys zs idx).2.1.Perm ys ∧
      (reduce xs ys zs idx).2.2.Perm zs := by
  refine ⟨reduceIdx_perm xs idx h, ?_, ?_⟩
  · exact reduceIdx_perm ys idx (by rw [hy]; exact h)
  · exact reduceIdx_perm zs idx (by rw [hz]; exact h)

/-- C5 witness: the identity draw `[0, 1]` on a two-point cloud. -/
theorem reduce_full_retention_perm_witness :
    (reduce [1, 2] [3, 4] [5, 6] [0, 1]).1.Perm [1, 2] ∧
      (reduce [1, 2] [3, 4] [5, 6] [0, 1]).2.1.Perm [3, 4] ∧
      (reduce [1, 2] [3, 4] [5, 6] [0, 1]).2.2.Perm [5, 6] :=
  reduce_full_retention_perm [1, 2] [3, 4] [5, 6] [0, 1]
    ⟨rfl, by decide, by decide⟩ rfl rfl

/-- Head, last and bounds of the reversal of a monotone arithmetic-like list. -/
theorem reverse_range_map_bounds (f : ℕ → ℚ) (m : ℕ)
    (hmono : ∀ i j : ℕ, i ≤ j → f i ≤ f j) :
    ((List.range (m+1)).map f).reverse.head? = some (f m) ∧
    ((List.range (m+1)).map f).reverse.getLast? = some (f 0) ∧
    ∀ yv ∈ ((List.range (m+1)).map f).reverse, f 0 ≤ yv ∧ yv ≤ f m := by
  refine ⟨?_, ?_, ?_⟩
  · rw [List.range_succ, List.map_append, List.reverse_append]
    simp
  · rw [List.getLast?_reverse, List.range_succ_eq_map, List.map_cons]
    simp
  · intro yv hyv
    rw [List.mem_reverse, List.mem_map] at hyv
    obtain ⟨k, hk, rfl⟩ := hyv
    have hk' : k ≤ m := by
      have := List.mem_range.mp hk
      omega
    exact ⟨hmono 0 k (Nat.zero_le k), hmono k m hk'⟩

/-- C6: for every grid spec with positive spacings and at least one row, the
flipped row y-coordinates used by `exec` have their maximum in row 0 and their
minimum in the last row. -/
theorem execRowYs_first_max_last_min (g : GridSpec)
    (_hdx : 0 < g.dx) (hdy : 0 < g.dy) (hny : 1 ≤ g.ny) :
    ∃ ytop ybot, (execRowYs g).head? = some ytop ∧
      (execRowYs g).getLast? = some ybot ∧
      ∀ yv ∈ execRowYs g, ybot ≤ yv ∧ yv ≤ ytop := by
  obtain ⟨m, hm⟩ : ∃ m : ℕ, g.ny.toNat = m + 1 := ⟨g.ny.toNat - 1, by omega⟩
  have hcount : (⌈(g.ymin + (g.ny : ℚ) * g.dy - g.ymin) / g.dy⌉).toNat = m + 1 := by
    rw [add_sub_cancel_left, mul_div_assoc, div_self (ne_of_gt hdy), mul_one,
      Int.ceil_intCast]
    exact hm
  have hys : execYs g = (List.range (m+1)).map (fun k : ℕ => g.ymin + k * g.dy) := by
    rw [execYs, npArange, hcount]
  have hmono : ∀ i j : ℕ, i ≤ j →
      (fun k : ℕ => g.ymin + k * g.dy) i ≤ (fun k : ℕ => g.ymin + k * g.dy) j := by
    intro i j hij
    have hcast : (i : ℚ) ≤ j := Nat.cast_le.mpr hij
    exact add_le_add_left (mul_le_mul_of_nonneg_right hcast (le_of_lt hdy)) _
  obtain ⟨h1, h2, h3⟩ := reverse_range_map_bounds (fun k : ℕ => g.ymin + k * g.dy) m hmono
  refine ⟨g.ymin + m * g.dy, g.ymin + (0:ℕ) * g.dy, ?_, ?_, ?_⟩
  · rw [execRowYs, hys]; exact h1
  · rw [execRowYs, hys]; exact h2
  · intro yv hyv
    rw [execRowYs, hys] at hyv
    exact h3 yv hyv

/-- C6 witness: the concrete grid with origin `(0,0)`, spacing `(5,5)` and
counts `(2,2)`. -/
theorem execRowYs_first_max_last_min_witness :
    ∃ ytop ybot, (execRowYs ⟨0, 0, 5, 5, 2, 2⟩).head? = some ytop ∧
      (execRowYs ⟨0, 0, 5, 5, 2, 2⟩).getLast? = some ybot ∧
      ∀ yv ∈ execRowYs ⟨0, 0, 5, 5, 2, 2⟩, ybot ≤ yv ∧ yv ≤ ytop :=
  execRowYs_first_max_last_min ⟨0, 0, 5, 5, 2, 2⟩ (by norm_num) (by norm_num) (by norm_num)

/-- Evaluation of the depth-field shape for the end-to-end grid: `exec` on the
`(2,2)`-count grid produces a 2×2 field. -/
theorem exec_s7_shape_eval :
    ((execStep s7 [sampleTri]).bind MState.z).map fieldShape = some (2, 2) := by
  have hxs : execXs ⟨0, 0, 5, 5, 2, 2⟩ = [0, 5] := by
    rw [execXs, npArange]
    rw [show ⌈((0:ℚ) + ((2:ℤ) : ℚ) * 5 - 0) / 5⌉ = 2 by norm_num,
      show Int.toNat 2 = 2 from rfl]
    norm_num [List.range_succ]
  have hys : execYs ⟨0, 0, 5, 5, 2, 2⟩ = [0, 5] := by
    rw [execYs, npArange]
    rw [show ⌈((0:ℚ) + ((2:ℤ) : ℚ) * 5 - 0) / 5⌉ = 2 by norm_num,
      show Int.toNat 2 = 2 from rfl]
    norm_num [List.range_succ]
  have hg : gridOf s7 = some ⟨0, 0, 5, 5, 2, 2⟩ := rfl
  rw [execStep, hg, Option.some_bind]
  simp only [execRowYs, hxs, hys, List.reverse_cons, List.reverse_nil,
    List.nil_append, List.cons_append]
  rw [if_neg (by simp)]
  simp [fieldShape]

/-- C7 counterexample: on the end-to-end grid (origin `(0,0)`, spacing `(5,5)`,
counts `(2,2)`) the computed depth field is **not** 3×3. -/
theorem exec_field_not_three_by_three :
    ((execStep s7 [sampleTri]).bind MState.z).map fieldShape ≠ some (3, 3) := by
  rw [exec_s7_shape_eval]
  simp

/-- C7 (amended): on the end-to-end grid the computed depth field has exactly
`ny × nx = 2 × 2` nodes (`np.arange` yields `count` points per axis, not
`count + 1`). -/
theorem exec_field_two_by_two :
    ((execStep s7 [sampleTri]).bind MState.z).map fieldShape = some (2, 2) :=
  exec_s7_shape_eval

/-- Evaluation of `load` on the corners `(0,4) × (0,4)` with spacing `4`. -/
theorem load_0404_eval : load 0 4 0 4 4 4 = some ⟨0, 0, 4, 4, 1, 1⟩ := by
  rw [load, if_neg (by norm_num)]
  norm_num [pyRound, GridSpec.mk.injEq]

/-- C9 counterexample: immediately after `load` (state `CONFIGURED`, depth
field still the initial empty list — nothing has been computed), `set_var`
does not fail: it proceeds and returns a result. -/
theorem set_var_before_compute_proceeds :
    loadCorners initState 0 4 0 4 4 4 =
      some ⟨some 0, some 0, some 4, some 4, some 1, some 1, some [], some [], some []⟩ ∧
    (MState.mk (some 0) (some 0) (some 4) (some 4) (some 1) (some 1)
      (some []) (some []) (some [])).z = some [] ∧
    setVarStep ⟨some 0, some 0, some 4, some 4, some 1, some 1, some [], some [], some []⟩
      [sampleTri] ≠ none := by
  refine ⟨?_, rfl, ?_⟩
  · rw [loadCorners, load_0404_eval]
    rfl
  · simp [setVarStep, gridOf]

/-- C9 (amended): `set_var` performs no readiness check at all.  Whenever the
six grid parameters are set (any state reached after a successful `load`) and
the triangulation of its input scatter is non-degenerate, it proceeds and
returns the interpolated meshes, whatever the depth field `z` is (computed or
not); its result does not depend on `z`, `x` or `y`. -/
theorem set_var_no_readiness_check (a b c d : ℚ) (e f : ℤ)
    (x y : Option (List (List ℚ))) (z : Option (List (List (Option ℚ))))
    (tris : List Tri) (h : tris ≠ []) :
    setVarStep ⟨some a, some b, some c, some d, some e, some f, x, y, z⟩ tris ≠ none := by
  simp [setVarStep, gridOf, h]

/-- C9 witness: concrete configured-but-not-computed state and a one-triangle
scatter. -/
theorem set_var_no_readiness_check_witness :
    setVarStep ⟨some 0, some 0, some 4, some 4, some 1, some 1, some [], some [],
      some []⟩ [sampleTri] ≠ none :=
  set_var_no_readiness_check 0 0 4 4 1 1 (some []) (some []) (some []) [sampleTri]
    (by simp)

/-- C10: in every reachable state — after construction, any number of `load`s
(by corners or from a configuration section) and `exec`s — `enabled()` returns
`True`: `self.x` starts as the empty list, never `None`, and no operation ever
assigns `None` to it. -/
theorem enabled_of_reachable (s : MState) (h : Reach s) : enabled s = true := by
  induction h with
  | init => rfl
  | load_corners x1 x2 y1 y2 dx dy hr heq ih =>
    obtain ⟨g, hg, hs'⟩ := Option.map_eq_some'.mp heq
    rw [← hs']
    exact ih
  | load_file rec hr heq ih =>
    rw [readConfStep] at heq
    split at heq
    · split at heq
      · rw [Option.some_inj] at heq
        rw [← heq]
        exact ih
      · exact absurd heq (by simp)
    · exact absurd heq (by simp)
  | exec tris hr heq ih =>
    simp only [execStep] at heq
    obtain ⟨g, hg, hf⟩ := Option.bind_eq_some.mp heq
    split at hf
    · exact absurd hf (by simp)
    · rw [Option.some_inj] at hf
      rw [← hf]
      rfl

/-- C10 witness: the freshly constructed instance. -/
theorem enabled_of_reachable_witness : enabled initState = true :=
  enabled_of_reachable initState Reach.init

/-- C4 (the code bug): `MeshRectangle.save_conf` cannot persist any grid spec.
Its very first write formats the malformed template `'[\x7b:s\x7d\x7d]'`, whose
trailing lone `\x7d` makes CPython raise
`ValueError: Single '\x7d' encountered in format string`, so nothing is
written and no round-trip is possible. -/
theorem meshRect_save_conf_raises :
    meshRectSaveConf "Main" ⟨0, 0, 100, 100, 1, 1⟩ = none := by
  rfl

/-- The intended round-trip contract holds for the well-formed
`MeshStructured.save_conf` variant: persisting the six fields and re-reading
them through `read_conf` restores the grid spec exactly. -/
theorem meshStruct_round_trip (g : GridSpec) (s : MState) :
    ∃ s', readConfStep s (meshStructSaveConf g) = some s' ∧ gridOf s' = some g := by
  refine ⟨MState.mk (some g.xmin) (some g.ymin) (some g.dx) (some g.dy)
    (some g.nx) (some g.ny) s.x s.y s.z, ?_, rfl⟩
  rw [readConfStep]
  have h1 : confLookup (meshStructSaveConf g) "xmin" = some g.xmin := rfl
  have h2 : confLookup (meshStructSaveConf g) "ymin" = some g.ymin := rfl
  have h3 : confLookup (meshStructSaveConf g) "dx" = some g.dx := rfl
  have h4 : confLookup (meshStructSaveConf g) "dy" = some g.dy := rfl
  have h5 : confLookup (meshStructSaveConf g) "nx" = some (g.nx : ℚ) := rfl
  have h6 : confLookup (meshStructSaveConf g) "ny" = some (g.ny : ℚ) := rfl
  rw [h1, h2, h3, h4, h5, h6]
  simp [readIntField, intOfQ, Rat.den_intCast, Rat.num_intCast]

/-- Masking with a `False` membership bit forces the cell to "no data"
(`np.where(mask, z, np.nan)`, outside branch). -/
theorem cellMask_outside (v : Option ℚ) : cellMask false v = none := rfl

/-- Masking with a `True` membership bit passes the cell value through
unchanged (`np.where(mask, z, np.nan)`, inside branch). -/
theorem cellMask_inside (v : Option ℚ) : cellMask true v = v := rfl

end MeshVerif
